import Mathlib

/-!
Shallow embedding of the transactional write coordinator of the
`template-acad` backend: the Prisma-backed `BaseRepository` with its
concrete repositories (`UsersRepository`, `AcademiesRepository`,
`PlansRepository`, `RefreshTokenRepository`) and the `UnitOfWork`
coordinator (`execute`, `executeWithOptions`, `batch`).

Records are rows with the union of the attributes the repositories touch;
a table is a list of records; the database holds one table per entity kind
plus the current wall-clock instant (used by `new Date()` in the source).
A `World` is the committed database together with at most one open
transaction scope; a Prisma delegate is the pair of a client (the ambient
`PrismaService` connection or a `TransactionClient` bound to a scope) and
an entity kind.
-/

namespace TemplateAcad

/-- Error kinds surfaced by the store layer (spec section 7). -/
inductive DbError where
  | notFound
  | constraintViolation
  | timeout
  | invalidScopeUse
  | custom (n : Nat)
deriving DecidableEq, Repr

/-- A persisted row: the union of the attributes used by the four
repositories (users, academies, plans, refresh tokens). Unused fields
default so that concrete rows are easy to write. -/
structure Entity where
  id : String
  email : String := ""
  name : String := ""
  slug : String := ""
  academyId : String := ""
  price : Nat := 0
  isActive : Bool := true
  token : String := ""
  userId : String := ""
  expiresAt : Nat := 0
  revokedAt : Option Nat := none
  deletedAt : Option Nat := none
deriving DecidableEq, Repr

/-- A table of rows, in insertion order. -/
abbrev Table := List Entity

/-- `findUnique` / `findFirst`: first row satisfying the predicate. -/
def Table.findUniqueBy (p : Entity → Bool) (t : Table) : Option Entity :=
  t.find? p

/-- The rows satisfying a where-clause, in table order. -/
def Table.findManyBy (p : Entity → Bool) (t : Table) : Table :=
  t.filter p

/-- `count({ where })`: number of rows matching the predicate. -/
def Table.countBy (p : Entity → Bool) (t : Table) : Nat :=
  (t.filter p).length

/-- `create({ data })`: appends the row; the unique-id constraint makes a
duplicate id a `ConstraintViolation`. -/
def Table.createEntity (r : Entity) (t : Table) : Except DbError (Entity × Table) :=
  if t.any (fun x => x.id = r.id) then .error .constraintViolation
  else .ok (r, t ++ [r])

/-- `update({ where: { id }, data })`: patches the row with the given id,
`NotFound` when no row has it. -/
def Table.updateById (id : String) (patch : Entity → Entity) (t : Table) :
    Except DbError (Entity × Table) :=
  match t.find? (fun x => x.id = id) with
  | none => .error .notFound
  | some r => .ok (patch r, t.map (fun x => if x.id = id then patch x else x))

/-- `delete({ where: { id } })`: removes the row with the given id,
`NotFound` when no row has it. -/
def Table.deleteById (id : String) (t : Table) : Except DbError (Entity × Table) :=
  match t.find? (fun x => x.id = id) with
  | none => .error .notFound
  | some r => .ok (r, t.filter (fun x => !(x.id = id)))

/-- `updateMany({ where, data })`: patches every matching row and reports
how many were touched. -/
def Table.updateManyBy (p : Entity → Bool) (patch : Entity → Entity) (t : Table) :
    Nat × Table :=
  ((t.filter p).length, t.map (fun x => if p x then patch x else x))

/-- `deleteMany({ where })`: removes every matching row and reports how
many were removed. -/
def Table.deleteManyBy (p : Entity → Bool) (t : Table) : Nat × Table :=
  ((t.filter p).length, t.filter (fun x => !(p x)))

/-- Stable insertion of a row into a run sorted by `le`. -/
def insertLe (le : Entity → Entity → Bool) (r : Entity) : Table → Table
  | [] => [r]
  | x :: xs => if le x r then x :: insertLe le r xs else r :: x :: xs

/-- Insertion sort implementing an `orderBy` clause. -/
def Table.sortLe (le : Entity → Entity → Bool) : Table → Table
  | [] => []
  | x :: xs => insertLe le x (Table.sortLe le xs)

/-- The four entity kinds the repositories manage. -/
inductive Kind where
  | user
  | academy
  | plan
  | token
deriving DecidableEq, Repr

/-- The database: one table per entity kind, plus the current instant
(the value `new Date()` reads in the source). -/
structure DB where
  users : Table
  academies : Table
  plans : Table
  tokens : Table
  now : Nat
deriving DecidableEq, Repr

/-- The table of a kind. -/
def DB.getTable (db : DB) : Kind → Table
  | .user => db.users
  | .academy => db.academies
  | .plan => db.plans
  | .token => db.tokens

/-- Replace the table of a kind. -/
def DB.setTable (db : DB) : Kind → Table → DB
  | .user, t => { db with users := t }
  | .academy, t => { db with academies := t }
  | .plan, t => { db with plans := t }
  | .token, t => { db with tokens := t }

/-- Prisma transaction isolation levels. -/
inductive IsolationLevel where
  | readUncommitted
  | readCommitted
  | repeatableRead
  | serializable
deriving DecidableEq, Repr

/-- A `Prisma.TransactionClient` is identified by the id of the scope it
is bound to. -/
abbrev TxClient := Nat

/-- The connection a delegate is bound to: the ambient `PrismaService`
or a `TransactionClient` for an open scope. -/
inductive Client where
  | ambient
  | tx (s : TxClient)
deriving DecidableEq, Repr

/-- A Prisma model delegate (`prisma.user`, `txClient.academy`, ...):
a client together with the entity kind it dispatches to. -/
structure Delegate where
  client : Client
  kind : Kind
deriving DecidableEq, Repr

/-- An open transaction scope: its id, its private view of the database,
and the isolation level it was opened with. -/
structure Scope where
  sid : TxClient
  view : DB
  iso : IsolationLevel
deriving DecidableEq, Repr

/-- The world: the committed database and at most one open scope.
`nextSid` numbers the scopes the coordinator opens. -/
structure World where
  committed : DB
  scope : Option Scope
  nextSid : Nat
deriving DecidableEq, Repr

/-- The database view a client reads and writes: the committed state for
the ambient connection, the scope's private view for a transaction
client. A transaction client whose scope is not the open one is stale and
using it is an error. -/
def Client.getView : Client → World → Except DbError DB
  | .ambient, w => .ok w.committed
  | .tx s, w =>
    match w.scope with
    | some sc => if sc.sid = s then .ok sc.view else .error .invalidScopeUse
    | none => .error .invalidScopeUse

/-- Write back the view a client operated on. -/
def Client.setView : Client → World → DB → World
  | .ambient, w, db => { w with committed := db }
  | .tx s, w, db =>
    match w.scope with
    | some sc => if sc.sid = s then { w with scope := some { sc with view := db } } else w
    | none => w

/-- Run a single table-level operation through a delegate: resolve the
client's view, run the operation on the kind's table (with the view's
clock), and write the updated table back into that same view. -/
def Delegate.run (d : Delegate) (op : Table → Nat → Except DbError (α × Table))
    (w : World) : Except DbError (α × World) :=
  match d.client.getView w with
  | .error e => .error e
  | .ok db =>
    match op (db.getTable d.kind) db.now with
    | .error e => .error e
    | .ok (a, t) => .ok (a, d.client.setView w (db.setTable d.kind t))

/-- `const delegate = tx ? this.getDelegate(tx) : this.getDelegate();` —
the delegate every `BaseRepository` operation resolves at the start of
the call, from the scope argument of that very call. -/
def resolveDelegate (gd : Option TxClient → Delegate) (tx : Option TxClient) : Delegate :=
  match tx with
  | some t => gd (some t)
  | none => gd none

/-- Pagination and ordering options of `BaseRepository.findMany`. -/
structure FindOptions where
  skip : Option Nat := none
  take : Option Nat := none
  orderBy : Option (Entity → Entity → Bool) := none

/-- Apply `orderBy`, then `skip`, then `take`, as Prisma does. -/
def applyFindOptions (o : FindOptions) (t : Table) : Table :=
  let t1 := match o.orderBy with
    | some le => Table.sortLe le t
    | none => t
  let t2 := match o.skip with
    | some n => t1.drop n
    | none => t1
  match o.take with
  | some n => t2.take n
  | none => t2

namespace BaseRepository

/-- `findById(id, tx?)`: `delegate.findUnique({ where: { id } })`. -/
def findById (gd : Option TxClient → Delegate) (id : String) (tx : Option TxClient)
    (w : World) : Except DbError (Option Entity × World) :=
  (resolveDelegate gd tx).run
    (fun t _ => .ok (Table.findUniqueBy (fun r => r.id = id) t, t)) w

/-- `findMany(where?, options?, tx?)`: `delegate.findMany({ where, ...options })`. -/
def findMany (gd : Option TxClient → Delegate) (p : Entity → Bool) (o : FindOptions)
    (tx : Option TxClient) (w : World) : Except DbError (Table × World) :=
  (resolveDelegate gd tx).run
    (fun t _ => .ok (applyFindOptions o (Table.findManyBy p t), t)) w

/-- `create(data, tx?)`: `delegate.create({ data })`. -/
def create (gd : Option TxClient → Delegate) (data : Entity) (tx : Option TxClient)
    (w : World) : Except DbError (Entity × World) :=
  (resolveDelegate gd tx).run (fun t _ => Table.createEntity data t) w

/-- `update(id, data, tx?)`: `delegate.update({ where: { id }, data })`;
the partial attribute payload is a patch on the stored row. -/
def update (gd : Option TxClient → Delegate) (id : String) (data : Entity → Entity)
    (tx : Option TxClient) (w : World) : Except DbError (Entity × World) :=
  (resolveDelegate gd tx).run (fun t _ => Table.updateById id data t) w

/-- `delete(id, tx?)`: `delegate.delete({ where: { id } })`. -/
def delete (gd : Option TxClient → Delegate) (id : String) (tx : Option TxClient)
    (w : World) : Except DbError (Entity × World) :=
  (resolveDelegate gd tx).run (fun t _ => Table.deleteById id t) w

/-- `softDelete(id, tx?)`:
`delegate.update({ where: { id }, data: { deletedAt: new Date() } })`. -/
def softDelete (gd : Option TxClient → Delegate) (id : String) (tx : Option TxClient)
    (w : World) : Except DbError (Entity × World) :=
  (resolveDelegate gd tx).run
    (fun t now => Table.updateById id (fun r => { r with deletedAt := some now }) t) w

/-- `count(where?, tx?)`: `delegate.count({ where })`. -/
def count (gd : Option TxClient → Delegate) (p : Entity → Bool) (tx : Option TxClient)
    (w : World) : Except DbError (Nat × World) :=
  (resolveDelegate gd tx).run (fun t _ => .ok (Table.countBy p t, t)) w

/-- `exists(where, tx?)`: `delegate.count({ where, take: 1 })` compared
with zero — the count a take-capped query reports is capped at one row. -/
def existsBy (gd : Option TxClient → Delegate) (p : Entity → Bool) (tx : Option TxClient)
    (w : World) : Except DbError (Bool × World) :=
  (resolveDelegate gd tx).run
    (fun t _ => .ok (decide (0 < min (Table.countBy p t) 1), t)) w

end BaseRepository

namespace UsersRepository

/-- `protected getDelegate(tx?) { return tx ? tx.user : this.prisma.user; }` -/
def getDelegate : Option TxClient → Delegate
  | some t => ⟨.tx t, .user⟩
  | none => ⟨.ambient, .user⟩

/-- `findByEmail(email, tx?)`: `delegate.findUnique({ where: { email } })`
on `tx ? tx.user : this.prisma.user`. -/
def findByEmail (email : String) (tx : Option TxClient) (w : World) :
    Except DbError (Option Entity × World) :=
  (resolveDelegate getDelegate tx).run
    (fun t _ => .ok (Table.findUniqueBy (fun r => r.email = email) t, t)) w

/-- `findActiveByEmail(email, tx?)`:
`delegate.findFirst({ where: { email, deletedAt: null } })`. -/
def findActiveByEmail (email : String) (tx : Option TxClient) (w : World) :
    Except DbError (Option Entity × World) :=
  (resolveDelegate getDelegate tx).run
    (fun t _ => .ok (Table.findUniqueBy (fun r => r.email = email && r.deletedAt = none) t, t)) w

/-- `createUser(data, tx?)`: `delegate.create({ data })`. -/
def createUser (data : Entity) (tx : Option TxClient) (w : World) :
    Except DbError (Entity × World) :=
  (resolveDelegate getDelegate tx).run (fun t _ => Table.createEntity data t) w

/-- `updateUser(id, data, tx?)`: `delegate.update({ where: { id }, data })`. -/
def updateUser (id : String) (data : Entity → Entity) (tx : Option TxClient) (w : World) :
    Except DbError (Entity × World) :=
  (resolveDelegate getDelegate tx).run (fun t _ => Table.updateById id data t) w

end UsersRepository

namespace RefreshTokenRepository

/-- `protected getDelegate(tx?) { return tx ? tx.userRefreshToken : this.prisma.userRefreshToken; }` -/
def getDelegate : Option TxClient → Delegate
  | some t => ⟨.tx t, .token⟩
  | none => ⟨.ambient, .token⟩

/-- `findValidToken(token, tx?)`: `delegate.findFirst({ where: { token,
revokedAt: null, expiresAt: { gt: new Date() } } })`. The `include:
{ user: true }` of the source only widens the returned payload with the
owning user row and is not part of the row model. -/
def findValidToken (token : String) (tx : Option TxClient) (w : World) :
    Except DbError (Option Entity × World) :=
  (resolveDelegate getDelegate tx).run
    (fun t now =>
      .ok (Table.findUniqueBy
        (fun r => r.token = token && r.revokedAt = none && now < r.expiresAt) t, t)) w

/-- `createToken(data, tx?)`: `delegate.create({ data })`. -/
def createToken (data : Entity) (tx : Option TxClient) (w : World) :
    Except DbError (Entity × World) :=
  (resolveDelegate getDelegate tx).run (fun t _ => Table.createEntity data t) w

/-- `revokeToken(id, tx?)`:
`delegate.update({ where: { id }, data: { revokedAt: new Date() } })`. -/
def revokeToken (id : String) (tx : Option TxClient) (w : World) :
    Except DbError (Entity × World) :=
  (resolveDelegate getDelegate tx).run
    (fun t now => Table.updateById id (fun r => { r with revokedAt := some now }) t) w

/-- `revokeUserTokens(userId, token?, tx?)`: `delegate.updateMany` over
the user's unrevoked tokens (optionally one token), setting `revokedAt`;
returns the count of rows touched. -/
def revokeUserTokens (userId : String) (token : Option String) (tx : Option TxClient)
    (w : World) : Except DbError (Nat × World) :=
  (resolveDelegate getDelegate tx).run
    (fun t now =>
      .ok (Table.updateManyBy
        (fun r => r.userId = userId
          && (match token with | some tok => r.token = tok | none => true)
          && r.revokedAt = none)
        (fun r => { r with revokedAt := some now }) t)) w

/-- `cleanExpiredTokens(tx?)`: `delegate.deleteMany` of expired or revoked
tokens; returns the count of rows removed. -/
def cleanExpiredTokens (tx : Option TxClient) (w : World) :
    Except DbError (Nat × World) :=
  (resolveDelegate getDelegate tx).run
    (fun t now =>
      .ok (Table.deleteManyBy (fun r => r.expiresAt < now || !(r.revokedAt = none)) t)) w

end RefreshTokenRepository

namespace AcademiesRepository

/-- `protected getDelegate() { return this.prisma.academy; }` — the
override declares no parameter, so the transaction client the base class
passes in is ignored and the ambient delegate is returned for every call. -/
def getDelegate : Option TxClient → Delegate :=
  fun _ => ⟨.ambient, .academy⟩

/-- `findBySlug(slug)`: `this.prisma.academy.findFirst({ where: { slug,
deletedAt: null } })` — the source method has no transaction parameter
and queries the ambient connection directly. -/
def findBySlug (slug : String) (w : World) : Except DbError (Option Entity × World) :=
  (Delegate.mk .ambient .academy).run
    (fun t _ => .ok (Table.findUniqueBy (fun r => r.slug = slug && r.deletedAt = none) t, t)) w

/-- `findActiveAcademies()`: `this.prisma.academy.findMany({ where:
{ deletedAt: null }, orderBy: { name: 'asc' } })` — no transaction
parameter in the source. -/
def findActiveAcademies (w : World) : Except DbError (Table × World) :=
  (Delegate.mk .ambient .academy).run
    (fun t _ =>
      .ok (Table.sortLe (fun a b => decide (a.name ≤ b.name))
        (Table.findManyBy (fun r => r.deletedAt = none) t), t)) w

/-- `createAcademy(data)`: `this.prisma.academy.create({ data })` — no
transaction parameter in the source. (`searchByLocation` is not modelled:
its bounding box is floating-point trigonometry; like the methods here it
takes no transaction parameter and queries `this.prisma.academy`.) -/
def createAcademy (data : Entity) (w : World) : Except DbError (Entity × World) :=
  (Delegate.mk .ambient .academy).run (fun t _ => Table.createEntity data t) w

/-- `updateAcademy(id, data)`: `this.prisma.academy.update({ where: { id },
data })` — no transaction parameter in the source. -/
def updateAcademy (id : String) (data : Entity → Entity) (w : World) :
    Except DbError (Entity × World) :=
  (Delegate.mk .ambient .academy).run (fun t _ => Table.updateById id data t) w

end AcademiesRepository

namespace PlansRepository

/-- `protected getDelegate() { return this.prisma.plan; }` — as for
academies, the override ignores any transaction client passed in. -/
def getDelegate : Option TxClient → Delegate :=
  fun _ => ⟨.ambient, .plan⟩

/-- `findByAcademy(academyId)`: `this.prisma.plan.findMany({ where:
{ academyId, deletedAt: null }, orderBy: { price: 'asc' } })` — no
transaction parameter in the source. -/
def findByAcademy (academyId : String) (w : World) : Except DbError (Table × World) :=
  (Delegate.mk .ambient .plan).run
    (fun t _ =>
      .ok (Table.sortLe (fun a b => decide (a.price ≤ b.price))
        (Table.findManyBy (fun r => r.academyId = academyId && r.deletedAt = none) t), t)) w

/-- `findActivePlans(academyId)`: as `findByAcademy` with `isActive: true`
added to the where-clause — no transaction parameter in the source. -/
def findActivePlans (academyId : String) (w : World) : Except DbError (Table × World) :=
  (Delegate.mk .ambient .plan).run
    (fun t _ =>
      .ok (Table.sortLe (fun a b => decide (a.price ≤ b.price))
        (Table.findManyBy
          (fun r => r.academyId = academyId && r.deletedAt = none && r.isActive) t), t)) w

/-- `createPlan(data)`: `this.prisma.plan.create({ data })` — no
transaction parameter in the source. -/
def createPlan (data : Entity) (w : World) : Except DbError (Entity × World) :=
  (Delegate.mk .ambient .plan).run (fun t _ => Table.createEntity data t) w

/-- `updatePlan(id, data)`: `this.prisma.plan.update({ where: { id },
data })` — no transaction parameter in the source. -/
def updatePlan (id : String) (data : Entity → Entity) (w : World) :
    Except DbError (Entity × World) :=
  (Delegate.mk .ambient .plan).run (fun t _ => Table.updateById id data t) w

end PlansRepository

/-- A unit of work: the callback `execute` hands the fresh transaction
client to. It threads the world (so it can call repositories with or
without the scope) and ends in a value or a raised error. -/
abbrev Work (α : Type) := TxClient → World → Except DbError α × World

/-- Open a fresh transaction scope: a new id, a view seeded from the
committed state, the given isolation level. -/
def openScope (iso : IsolationLevel) (w : World) : World :=
  { committed := w.committed
    scope := some { sid := w.nextSid, view := w.committed, iso := iso }
    nextSid := w.nextSid + 1 }

/-- Commit the open scope: its view becomes the committed state. -/
def commitWorld (w : World) : World :=
  match w.scope with
  | some sc => { committed := sc.view, scope := none, nextSid := w.nextSid }
  | none => { w with scope := none }

/-- Roll the open scope back: its view is discarded. -/
def rollbackWorld (w : World) : World :=
  { committed := w.committed, scope := none, nextSid := w.nextSid }

/-- Modelled from the spec: `PrismaClient.$transaction` (interactive
form), the persistence-engine primitive `UnitOfWork.execute` forwards to;
it is library code, not part of this repository's sources. It opens a
fresh scope, invokes the work once with the scope's client, commits the
scope's view on normal return, and discards the view and re-raises on
error. -/
def prismaTransactionRun (work : Work α) (iso : IsolationLevel) (w : World) :
    Except DbError α × World :=
  match work w.nextSid (openScope iso w) with
  | (.ok a, w2) => (.ok a, commitWorld w2)
  | (.error e, w2) => (.error e, rollbackWorld w2)

/-- `UnitOfWork.execute(work) { return this.prisma.$transaction(work); }` —
default options, hence the default isolation level. -/
def UnitOfWork.execute (work : Work α) (w : World) : Except DbError α × World :=
  prismaTransactionRun work .readCommitted w

/-- Transaction options of `executeWithOptions`:
`{ maxWait?, timeout?, isolationLevel? }`. -/
structure TxOptions where
  maxWait : Option Nat := none
  timeout : Option Nat := none
  isolationLevel : Option IsolationLevel := none

/-- Prisma's default bound on waiting to acquire a connection (2s). -/
def prismaDefaultMaxWait : Nat := 2000

/-- Prisma's default bound on the duration of a transaction (5s). -/
def prismaDefaultTimeout : Nat := 5000

/-- A unit of work that also reports how long it ran, for the timed
transaction model. -/
abbrev TimedWork (α : Type) := TxClient → World → (Except DbError α × World) × Nat

/-- Modelled from the spec: `PrismaClient.$transaction` with options —
library code outside this repository's sources. `acquireWait` is the time
spent acquiring a connection under contention: exceeding `maxWait` fails
with `Timeout` before any scope opens. The work runs inside a scope at
the configured isolation level and reports its duration: exceeding
`timeout` forces rollback and fails with `Timeout`; otherwise commit and
rollback behave as in the untimed form. -/
def prismaTransactionRunTimed (work : TimedWork α) (options : TxOptions)
    (acquireWait : Nat) (w : World) : Except DbError α × World :=
  if options.maxWait.getD prismaDefaultMaxWait < acquireWait then
    (.error .timeout, w)
  else if options.timeout.getD prismaDefaultTimeout <
      (work w.nextSid (openScope (options.isolationLevel.getD .readCommitted) w)).2 then
    (.error .timeout,
     rollbackWorld (work w.nextSid (openScope (options.isolationLevel.getD .readCommitted) w)).1.2)
  else
    match (work w.nextSid (openScope (options.isolationLevel.getD .readCommitted) w)).1 with
    | (.ok a, w2) => (.ok a, commitWorld w2)
    | (.error e, w2) => (.error e, rollbackWorld w2)

/-- `UnitOfWork.executeWithOptions(work, options)
{ return this.prisma.$transaction(work, options); }`. -/
def UnitOfWork.executeWithOptions (work : TimedWork α) (options : TxOptions)
    (acquireWait : Nat) (w : World) : Except DbError α × World :=
  prismaTransactionRunTimed work options acquireWait w

/-- The heterogeneous results the operations of a batch can produce. -/
inductive Value where
  | ent (r : Entity)
  | ents (rs : List Entity)
  | nat (n : Nat)
  | bool (b : Bool)
  | opt (o : Option Entity)
deriving DecidableEq, Repr

/-- A `PrismaPromise` passed to `batch`: a not-yet-dispatched query built
on `this.prisma`, run against whatever database state it is handed. -/
abbrev BatchOp := DB → Except DbError (Value × DB)

/-- Sequential execution of the batch members, each seeing the effects of
the previous ones. -/
def prismaBatchGo : List BatchOp → DB → Except DbError (List Value × DB)
  | [], db => .ok ([], db)
  | op :: rest, db =>
    match op db with
    | .error e => .error e
    | .ok (v, db2) =>
      match prismaBatchGo rest db2 with
      | .error e => .error e
      | .ok (vs, db3) => .ok (v :: vs, db3)

/-- Modelled from the spec: `PrismaClient.$transaction` (array form) —
library code outside this repository's sources. The queries run
sequentially inside a single transaction; if any of them fails the whole
transaction is rolled back and nothing is committed. -/
def prismaBatch (ops : List BatchOp) (w : World) : Except DbError (List Value) × World :=
  match prismaBatchGo ops w.committed with
  | .ok (vs, db2) => (.ok vs, { w with committed := db2 })
  | .error e => (.error e, w)

/-- `UnitOfWork.batch(operations)
{ return this.prisma.$transaction([...operations]); }`. -/
def UnitOfWork.batch (ops : List BatchOp) (w : World) : Except DbError (List Value) × World :=
  prismaBatch ops w

/-- `this.prisma.<kind>.count({ where })` as a batch member. -/
def PrismaClient.countOp (k : Kind) (p : Entity → Bool) : BatchOp :=
  fun db => .ok (.nat (Table.countBy p (db.getTable k)), db)

/-- `this.prisma.<kind>.create({ data })` as a batch member. -/
def PrismaClient.createOp (k : Kind) (data : Entity) : BatchOp :=
  fun db =>
    match Table.createEntity data (db.getTable k) with
    | .error e => .error e
    | .ok (r, t) => .ok (.ent r, db.setTable k t)

/-- `this.prisma.<kind>.update({ where: { id }, data })` as a batch member. -/
def PrismaClient.updateOp (k : Kind) (id : String) (data : Entity → Entity) : BatchOp :=
  fun db =>
    match Table.updateById id data (db.getTable k) with
    | .error e => .error e
    | .ok (r, t) => .ok (.ent r, db.setTable k t)

/-- `this.prisma.<kind>.findUnique({ where })` as a batch member. -/
def PrismaClient.findOp (k : Kind) (p : Entity → Bool) : BatchOp :=
  fun db => .ok (.opt (Table.findUniqueBy p (db.getTable k)), db)

/-- A client is usable in a world: the ambient connection always, a
transaction client only while its scope is the open one. -/
def Client.valid : Client → World → Prop
  | .ambient, _ => True
  | .tx s, w => ∃ sc, w.scope = some sc ∧ sc.sid = s

/-- The database view a usable client operates on. -/
def Client.viewOf : Client → World → DB
  | .ambient, w => w.committed
  | .tx _, w =>
    match w.scope with
    | some sc => sc.view
    | none => w.committed

/-- The table a delegate dispatches to in a world. -/
def Delegate.tableOf (d : Delegate) (w : World) : Table :=
  (d.client.viewOf w).getTable d.kind

theorem DB.getTable_setTable_self (db : DB) (k : Kind) (t : Table) :
    (db.setTable k t).getTable k = t := by
  cases k <;> rfl

theorem DB.getTable_setTable_ne (db : DB) (k k2 : Kind) (t : Table) (h : k2 ≠ k) :
    (db.setTable k t).getTable k2 = db.getTable k2 := by
  cases k <;> cases k2 <;> first | rfl | exact absurd rfl h

theorem DB.setTable_getTable (db : DB) (k : Kind) :
    db.setTable k (db.getTable k) = db := by
  cases k <;> rfl

theorem DB.now_setTable (db : DB) (k : Kind) (t : Table) :
    (db.setTable k t).now = db.now := by
  cases k <;> rfl

theorem World.eta_scope (w : World) (sc : Scope) (h : w.scope = some sc) :
    { w with scope := some sc } = w := by
  obtain ⟨c, s, n⟩ := w
  cases h
  rfl

theorem Client.setView_viewOf (c : Client) (w : World) (h : c.valid w) :
    c.setView w (c.viewOf w) = w := by
  cases c with
  | ambient => rfl
  | tx s =>
    obtain ⟨sc, h1, h2⟩ := h
    subst h2
    simp [Client.setView, Client.viewOf, h1]
    exact World.eta_scope w sc h1

/-- Running an operation through an ambient delegate: it reads and writes
the committed database. -/
theorem Delegate.run_ambient (k : Kind) (op : Table → Nat → Except DbError (α × Table))
    (w : World) :
    Delegate.run ⟨.ambient, k⟩ op w =
      match op (w.committed.getTable k) w.committed.now with
      | .error e => .error e
      | .ok (a, t) => .ok (a, { w with committed := w.committed.setTable k t }) := rfl

/-- Running an operation through a transaction client bound to the open
scope: it reads and writes the scope's private view. -/
theorem Delegate.run_tx (s : TxClient) (k : Kind)
    (op : Table → Nat → Except DbError (α × Table)) (w : World) (sc : Scope)
    (h1 : w.scope = some sc) (h2 : sc.sid = s) :
    Delegate.run ⟨.tx s, k⟩ op w =
      match op (sc.view.getTable k) sc.view.now with
      | .error e => .error e
      | .ok (a, t) => .ok (a, { w with scope := some { sc with view := sc.view.setTable k t } }) := by
  simp [Delegate.run, Client.getView, Client.setView, h1, h2]

/-- A delegate operation with a usable client: it acts on the view the
client resolves to, and only there. -/
theorem Delegate.run_valid (d : Delegate) (op : Table → Nat → Except DbError (α × Table))
    (w : World) (h : d.client.valid w) :
    Delegate.run d op w =
      match op (d.tableOf w) (d.client.viewOf w).now with
      | .error e => .error e
      | .ok (a, t) => .ok (a, d.client.setView w ((d.client.viewOf w).setTable d.kind t)) := by
  obtain ⟨c, k⟩ := d
  cases c with
  | ambient => rfl
  | tx s =>
    obtain ⟨sc, h1, h2⟩ := h
    rw [Delegate.run_tx s k op w sc h1 h2]
    simp only [Delegate.tableOf, Client.viewOf, Client.setView, h1, h2, if_pos]

/-- The view of a transaction client while its scope is open. -/
theorem Client.viewOf_tx (s : TxClient) (w : World) (sc : Scope) (h : w.scope = some sc) :
    Client.viewOf (.tx s) w = sc.view := by
  simp [Client.viewOf, h]

/-- The delegate a `BaseRepository` operation resolves is exactly
`getDelegate` at the scope argument of that very call. -/
theorem resolveDelegate_eq (gd : Option TxClient → Delegate) (tx : Option TxClient) :
    resolveDelegate gd tx = gd tx := by
  cases tx <;> rfl

/-- A delegate operation whose table-level step fails propagates that
error and has no effect. -/
theorem Delegate.run_valid_error (d : Delegate)
    (op : Table → Nat → Except DbError (α × Table)) (w : World) (e : DbError)
    (h : d.client.valid w)
    (hop : op (d.tableOf w) (d.client.viewOf w).now = .error e) :
    Delegate.run d op w = .error e := by
  rw [Delegate.run_valid d op w h, hop]

/-- A delegate operation whose table-level step succeeds writes the new
table back into the view the client resolved to. -/
theorem Delegate.run_valid_ok (d : Delegate)
    (op : Table → Nat → Except DbError (α × Table)) (w : World) (a : α) (t : Table)
    (h : d.client.valid w)
    (hop : op (d.tableOf w) (d.client.viewOf w).now = .ok (a, t)) :
    Delegate.run d op w =
      .ok (a, d.client.setView w ((d.client.viewOf w).setTable d.kind t)) := by
  rw [Delegate.run_valid d op w h, hop]

/-- A pure read through a usable delegate returns the value of the view's
table and leaves the world untouched. -/
theorem Delegate.run_read (d : Delegate) (f : Table → Nat → α) (w : World)
    (h : d.client.valid w) :
    Delegate.run d (fun t now => .ok (f t now, t)) w =
      .ok (f (d.tableOf w) (d.client.viewOf w).now, w) := by
  rw [Delegate.run_valid d _ w h]
  simp only [Delegate.tableOf, DB.setTable_getTable]
  rw [Client.setView_viewOf d.client w h]

/-- A pure read through a transaction client bound to the open scope. -/
theorem Delegate.run_tx_read (s : TxClient) (k : Kind) (f : Table → Nat → α) (w : World)
    (sc : Scope) (h1 : w.scope = some sc) (h2 : sc.sid = s) :
    Delegate.run ⟨.tx s, k⟩ (fun t now => .ok (f t now, t)) w =
      .ok (f (sc.view.getTable k) sc.view.now, w) := by
  have h := Delegate.run_read ⟨.tx s, k⟩ f w ⟨sc, h1, h2⟩
  simp only [Delegate.tableOf] at h
  rw [Client.viewOf_tx s w sc h1] at h
  exact h

/-- A pure read through the ambient connection. -/
theorem Delegate.run_ambient_read (k : Kind) (f : Table → Nat → α) (w : World) :
    Delegate.run ⟨.ambient, k⟩ (fun t now => .ok (f t now, t)) w =
      .ok (f (w.committed.getTable k) w.committed.now, w) :=
  Delegate.run_read ⟨.ambient, k⟩ f w trivial

/-- A successful write through a transaction client bound to the open
scope updates only the scope's private view. -/
theorem Delegate.run_tx_ok (s : TxClient) (k : Kind)
    (op : Table → Nat → Except DbError (α × Table)) (w : World) (sc : Scope) (a : α)
    (t : Table) (h1 : w.scope = some sc) (h2 : sc.sid = s)
    (hop : op (sc.view.getTable k) sc.view.now = .ok (a, t)) :
    Delegate.run ⟨.tx s, k⟩ op w =
      .ok (a, { w with scope := some { sc with view := sc.view.setTable k t } }) := by
  rw [Delegate.run_tx s k op w sc h1 h2, hop]

/-- A successful write through the ambient connection updates only the
committed database. -/
theorem Delegate.run_ambient_ok (k : Kind)
    (op : Table → Nat → Except DbError (α × Table)) (w : World) (a : α) (t : Table)
    (hop : op (w.committed.getTable k) w.committed.now = .ok (a, t)) :
    Delegate.run ⟨.ambient, k⟩ op w =
      .ok (a, { w with committed := w.committed.setTable k t }) := by
  rw [Delegate.run_ambient k op w, hop]

/-- A sample user row. -/
def uAlice : Entity :=
  { id := "u1", email := "alice@x.com" }

/-- A database holding just that user. -/
def dbOneUser : DB :=
  { users := [uAlice], academies := [], plans := [], tokens := [], now := 100 }

/-- A world with that database committed and no open scope. -/
def wOneUser : World :=
  { committed := dbOneUser, scope := none, nextSid := 0 }

/-- The sample user after a soft delete at instant 100. -/
def uAliceDel : Entity :=
  { uAlice with deletedAt := some 100 }

/-- The sample world after the soft delete committed. -/
def wOneUserDel : World :=
  { committed := { dbOneUser with users := [uAliceDel] }, scope := none, nextSid := 0 }

/-- The `deletedAt: null` where-clause. -/
def activeFilter : Entity → Bool :=
  fun r => r.deletedAt = none

/-- C9: `findById` (of any repository) and `findByEmail` return the
matching record when one exists and an absent value when none does;
absence is not an error — with or without a scope (any usable client),
the call returns normally and leaves the world unchanged. -/
theorem findById_findByEmail_never_fail_c9
    (gd : Option TxClient → Delegate) (id email : String) (tx : Option TxClient) (w : World)
    (h : ((resolveDelegate gd tx).client).valid w)
    (h2 : ((resolveDelegate UsersRepository.getDelegate tx).client).valid w) :
    BaseRepository.findById gd id tx w =
      .ok (Table.findUniqueBy (fun r => r.id = id) ((resolveDelegate gd tx).tableOf w), w) ∧
    UsersRepository.findByEmail email tx w =
      .ok (Table.findUniqueBy (fun r => r.email = email)
        ((resolveDelegate UsersRepository.getDelegate tx).tableOf w), w) := by
  constructor
  · exact Delegate.run_read (resolveDelegate gd tx)
      (fun t _ => Table.findUniqueBy (fun r => r.id = id) t) w h
  · exact Delegate.run_read (resolveDelegate UsersRepository.getDelegate tx)
      (fun t _ => Table.findUniqueBy (fun r => r.email = email) t) w h2

/-- Witness for C9: on a world with one user, `findById "u1"` finds her
and `findByEmail "missing@x.com"` returns absent, not an error. -/
theorem findById_findByEmail_never_fail_c9_witness :
    BaseRepository.findById UsersRepository.getDelegate "u1" none wOneUser =
      .ok (some uAlice, wOneUser) ∧
    UsersRepository.findByEmail "missing@x.com" none wOneUser = .ok (none, wOneUser) := by
  have h := findById_findByEmail_never_fail_c9 UsersRepository.getDelegate
    "u1" "missing@x.com" none wOneUser trivial trivial
  exact ⟨h.1.trans (by rfl), h.2.trans (by rfl)⟩

/-- C10: `exists(filter)` issues a count capped at one row (`take: 1`)
and compares it with zero; the boolean agrees with the uncapped
`count(filter)` being nonzero, i.e. with at least one record matching. -/
theorem exists_iff_count_pos_c10 (gd : Option TxClient → Delegate) (p : Entity → Bool)
    (tx : Option TxClient) (w : World) (h : ((resolveDelegate gd tx).client).valid w) :
    BaseRepository.existsBy gd p tx w =
      .ok (decide (0 < min (Table.countBy p ((resolveDelegate gd tx).tableOf w)) 1), w) ∧
    BaseRepository.count gd p tx w =
      .ok (Table.countBy p ((resolveDelegate gd tx).tableOf w), w) ∧
    ((decide (0 < min (Table.countBy p ((resolveDelegate gd tx).tableOf w)) 1) = true) ↔
      0 < Table.countBy p ((resolveDelegate gd tx).tableOf w)) := by
  refine ⟨Delegate.run_read (resolveDelegate gd tx)
      (fun t _ => decide (0 < min (Table.countBy p t) 1)) w h,
    Delegate.run_read (resolveDelegate gd tx) (fun t _ => Table.countBy p t) w h, ?_⟩
  simp [Nat.lt_min]

/-- Witness for C10: on a world with one active user, `exists` of the
active filter is `true` and `count` is `1`. -/
theorem exists_iff_count_pos_c10_witness :
    BaseRepository.existsBy UsersRepository.getDelegate activeFilter none wOneUser =
      .ok (true, wOneUser) ∧
    BaseRepository.count UsersRepository.getDelegate activeFilter none wOneUser =
      .ok (1, wOneUser) := by
  have h := exists_iff_count_pos_c10 UsersRepository.getDelegate activeFilter none
    wOneUser trivial
  exact ⟨h.1.trans (by rfl), h.2.1.trans (by rfl)⟩

/-- C8: `softDelete(id, scope?)` patches exactly the record with the
given id, setting only its `deletedAt` to the view's current instant;
every other attribute of that record, every other record, and every
other table are unchanged; it fails with `NotFound` when no record has
the id. -/
theorem softDelete_c8 (gd : Option TxClient → Delegate) (id : String)
    (tx : Option TxClient) (w : World) (h : ((resolveDelegate gd tx).client).valid w) :
    (Table.findUniqueBy (fun x => x.id = id) ((resolveDelegate gd tx).tableOf w) = none →
      BaseRepository.softDelete gd id tx w = .error .notFound) ∧
    (∀ r, Table.findUniqueBy (fun x => x.id = id) ((resolveDelegate gd tx).tableOf w) = some r →
      BaseRepository.softDelete gd id tx w =
        .ok ({ r with deletedAt := some ((resolveDelegate gd tx).client.viewOf w).now },
          (resolveDelegate gd tx).client.setView w
            (((resolveDelegate gd tx).client.viewOf w).setTable (resolveDelegate gd tx).kind
              (((resolveDelegate gd tx).tableOf w).map
                (fun x => if x.id = id
                  then { x with deletedAt := some ((resolveDelegate gd tx).client.viewOf w).now }
                  else x)))) ∧
      (∀ k2, k2 ≠ (resolveDelegate gd tx).kind →
        (((resolveDelegate gd tx).client.viewOf w).setTable (resolveDelegate gd tx).kind
          (((resolveDelegate gd tx).tableOf w).map
            (fun x => if x.id = id
              then { x with deletedAt := some ((resolveDelegate gd tx).client.viewOf w).now }
              else x))).getTable k2 = ((resolveDelegate gd tx).client.viewOf w).getTable k2)) := by
  constructor
  · intro hnone
    simp only [Table.findUniqueBy] at hnone
    refine Delegate.run_valid_error (resolveDelegate gd tx)
      (fun t now => Table.updateById id (fun r => { r with deletedAt := some now }) t)
      w .notFound h ?_
    unfold Table.updateById
    beta_reduce
    rw [hnone]
  · intro r hsome
    simp only [Table.findUniqueBy] at hsome
    refine ⟨?_, fun k2 hk2 => DB.getTable_setTable_ne _ _ _ _ hk2⟩
    refine Delegate.run_valid_ok (resolveDelegate gd tx)
      (fun t now => Table.updateById id (fun r => { r with deletedAt := some now }) t)
      w _ _ h ?_
    unfold Table.updateById
    beta_reduce
    rw [hsome]

/-- Witness for C8: soft-deleting a missing id fails with `NotFound`;
soft-deleting the sample user stamps her `deletedAt` with the current
instant and leaves everything else as it was. -/
theorem softDelete_c8_witness :
    BaseRepository.softDelete UsersRepository.getDelegate "zzz" none wOneUser =
      .error .notFound ∧
    BaseRepository.softDelete UsersRepository.getDelegate "u1" none wOneUser =
      .ok (uAliceDel, wOneUserDel) := by
  have h1 := (softDelete_c8 UsersRepository.getDelegate "zzz" none wOneUser trivial).1 (by rfl)
  have h2 := ((softDelete_c8 UsersRepository.getDelegate "u1" none wOneUser trivial).2
    uAlice (by rfl)).1
  exact ⟨h1, h2.trans (by rfl)⟩

/-- C1: `execute(work)` opens a fresh scope (a new transaction client
whose private view is a snapshot of the committed state) and invokes the
work exactly once on it; on normal return the scope commits and `execute`
returns the value the work produced; on error the scope's view is
discarded, the same error is re-raised, and — for a work that wrote only
through its scope — the committed state afterwards is exactly the state
before, so none of its writes is visible to reads outside any scope. -/
theorem execute_c1 {α : Type} (work : Work α) (w : World) :
    openScope .readCommitted w =
      { committed := w.committed
        scope := some { sid := w.nextSid, view := w.committed, iso := .readCommitted }
        nextSid := w.nextSid + 1 } ∧
    (∀ a w2, work w.nextSid (openScope .readCommitted w) = (.ok a, w2) →
      UnitOfWork.execute work w = (.ok a, commitWorld w2)) ∧
    (∀ e w2, work w.nextSid (openScope .readCommitted w) = (.error e, w2) →
      UnitOfWork.execute work w = (.error e, rollbackWorld w2) ∧
      (rollbackWorld w2).scope = none ∧
      (w2.committed = w.committed →
        (UnitOfWork.execute work w).2.committed = w.committed)) := by
  refine ⟨rfl, ?_, ?_⟩
  · intro a w2 hw
    unfold UnitOfWork.execute prismaTransactionRun
    rw [hw]
  · intro e w2 hw
    have hex : UnitOfWork.execute work w = (.error e, rollbackWorld w2) := by
      unfold UnitOfWork.execute prismaTransactionRun
      rw [hw]
    exact ⟨hex, rfl, fun hc => by rw [hex]; exact hc⟩

/-- A work that performs two repository writes through its scope and then
throws. -/
def c1Work : Work Unit := fun s w =>
  match UsersRepository.createUser { id := "u9", email := "bob@x.com" } (some s) w with
  | .error e => (.error e, w)
  | .ok (_, w1) =>
    match RefreshTokenRepository.createToken
        { id := "t9", token := "tok9", userId := "u9", expiresAt := 999 } (some s) w1 with
    | .error e => (.error e, w1)
    | .ok (_, w2) => (.error (.custom 7), w2)

/-- Witness for C1: the two-writes-then-throw work makes `execute`
re-raise the error, the committed state is untouched, and the user it
created inside the scope is not findable outside any scope afterwards. -/
theorem execute_c1_witness :
    (UnitOfWork.execute c1Work wOneUser).1 = .error (.custom 7) ∧
    (UnitOfWork.execute c1Work wOneUser).2.committed = wOneUser.committed ∧
    BaseRepository.findById UsersRepository.getDelegate "u9" none
        (UnitOfWork.execute c1Work wOneUser).2 =
      .ok (none, (UnitOfWork.execute c1Work wOneUser).2) := by
  have h := (execute_c1 c1Work wOneUser).2.2 (.custom 7)
    (c1Work wOneUser.nextSid (openScope .readCommitted wOneUser)).2 (by rfl)
  refine ⟨by rw [h.1], h.2.2 (by rfl), by rfl⟩

/-- C3: `executeWithOptions(work, { maxWait, timeout, isolationLevel })`
runs the work inside a scope opened at the given isolation level (default
read-committed) under the given acquisition and duration bounds.
Exceeding the acquisition bound fails with `Timeout` before any scope
opens; exceeding the duration bound fails with `Timeout` and forces
rollback, leaving no partial write visible when the work wrote only
through its scope; within both bounds it commits on normal return and
rolls back re-raising on error. -/
theorem executeWithOptions_c3 {α : Type} (work : TimedWork α) (options : TxOptions)
    (acquireWait : Nat) (w : World) :
    (options.maxWait.getD prismaDefaultMaxWait < acquireWait →
      UnitOfWork.executeWithOptions work options acquireWait w = (.error .timeout, w)) ∧
    (acquireWait ≤ options.maxWait.getD prismaDefaultMaxWait →
      (openScope (options.isolationLevel.getD .readCommitted) w).scope =
        some { sid := w.nextSid, view := w.committed
               iso := options.isolationLevel.getD .readCommitted } ∧
      (options.timeout.getD prismaDefaultTimeout <
          (work w.nextSid (openScope (options.isolationLevel.getD .readCommitted) w)).2 →
        UnitOfWork.executeWithOptions work options acquireWait w =
          (.error .timeout,
           rollbackWorld
             (work w.nextSid (openScope (options.isolationLevel.getD .readCommitted) w)).1.2) ∧
        ((work w.nextSid
            (openScope (options.isolationLevel.getD .readCommitted) w)).1.2.committed =
              w.committed →
          (UnitOfWork.executeWithOptions work options acquireWait w).2.committed =
            w.committed)) ∧
      ((work w.nextSid (openScope (options.isolationLevel.getD .readCommitted) w)).2 ≤
          options.timeout.getD prismaDefaultTimeout →
        (∀ a w2,
          (work w.nextSid (openScope (options.isolationLevel.getD .readCommitted) w)).1 =
              (.ok a, w2) →
          UnitOfWork.executeWithOptions work options acquireWait w = (.ok a, commitWorld w2)) ∧
        (∀ e w2,
          (work w.nextSid (openScope (options.isolationLevel.getD .readCommitted) w)).1 =
              (.error e, w2) →
          UnitOfWork.executeWithOptions work options acquireWait w =
            (.error e, rollbackWorld w2)))) := by
  constructor
  · intro hmw
    unfold UnitOfWork.executeWithOptions prismaTransactionRunTimed
    rw [if_pos hmw]
  · intro hmw
    refine ⟨rfl, ?_, ?_⟩
    · intro hto
      have hex : UnitOfWork.executeWithOptions work options acquireWait w =
          (.error .timeout,
           rollbackWorld
             (work w.nextSid (openScope (options.isolationLevel.getD .readCommitted) w)).1.2) := by
        unfold UnitOfWork.executeWithOptions prismaTransactionRunTimed
        rw [if_neg (Nat.not_lt.mpr hmw), if_pos hto]
      exact ⟨hex, fun hc => by rw [hex]; exact hc⟩
    · intro hto
      constructor
      · intro a w2 hw
        unfold UnitOfWork.executeWithOptions prismaTransactionRunTimed
        rw [if_neg (Nat.not_lt.mpr hmw), if_neg (Nat.not_lt.mpr hto), hw]
      · intro e w2 hw
        unfold UnitOfWork.executeWithOptions prismaTransactionRunTimed
        rw [if_neg (Nat.not_lt.mpr hmw), if_neg (Nat.not_lt.mpr hto), hw]

/-- A timed work that writes a user through its scope and reports a
duration of 6000ms. -/
def c3Work : TimedWork Unit := fun s w =>
  (match UsersRepository.createUser { id := "u9", email := "bob@x.com" } (some s) w with
   | .error e => (.error e, w)
   | .ok (_, w1) => (.ok (), w1), 6000)

/-- Options bounding the transaction duration at 5000ms. -/
def c3Options : TxOptions := { timeout := some 5000 }

/-- Witness for C3: the 6000ms work against a 5000ms bound fails with
`Timeout` and its scoped write is rolled back; with an acquisition wait
beyond `maxWait` the call fails with `Timeout` before anything runs. -/
theorem executeWithOptions_c3_witness :
    (UnitOfWork.executeWithOptions c3Work c3Options 0 wOneUser).1 = .error .timeout ∧
    (UnitOfWork.executeWithOptions c3Work c3Options 0 wOneUser).2.committed =
      wOneUser.committed ∧
    UnitOfWork.executeWithOptions c3Work c3Options 9999 wOneUser =
      (.error .timeout, wOneUser) := by
  have h := ((executeWithOptions_c3 c3Work c3Options 0 wOneUser).2 (by decide)).2.1 (by decide)
  have h2 := (executeWithOptions_c3 c3Work c3Options 9999 wOneUser).1 (by decide)
  exact ⟨by rw [h.1], h.2 (by rfl), h2⟩

/-- A batch whose first member creates a user and whose second member
updates a missing id (and so fails with `NotFound`). -/
def c4Ops : List BatchOp :=
  [PrismaClient.createOp .user { id := "u2", email := "eve@x.com" },
   PrismaClient.updateOp .user "missing" (fun r => r)]

/-- Counterexample to C4 as stated: in this concrete batch one member
fails, and the batch rolls the whole transaction back — the create
performed by the other member has no visible effect (the created user is
not findable afterwards), contradicting the claim that a member failing
does not imply the other members have no visible effect. -/
theorem batch_c4_counterexample :
    UnitOfWork.batch c4Ops wOneUser = (.error .notFound, wOneUser) ∧
    BaseRepository.findById UsersRepository.getDelegate "u2" none
        (UnitOfWork.batch c4Ops wOneUser).2 =
      .ok (none, wOneUser) := by
  exact ⟨rfl, rfl⟩

/-- C4 (amended): `batch` hands its operations to the array form of
`$transaction`, which runs them sequentially inside a single transaction
and IS atomic across failures: when any member fails, the batch fails
with that member's error and no member's effect is visible — the world is
exactly as before the call. It differs from `execute` in shape (a fixed
list of independent pre-built operations rather than an interactive work
function), not in lacking rollback. -/
theorem batch_atomic_c4 (ops : List BatchOp) (w : World) (e : DbError) (w2 : World)
    (h : UnitOfWork.batch ops w = (.error e, w2)) : w2 = w := by
  unfold UnitOfWork.batch prismaBatch at h
  cases hgo : prismaBatchGo ops w.committed with
  | ok p => rw [hgo] at h; simp at h
  | error e2 =>
    rw [hgo] at h
    injection h with h1 h2
    exact h2.symm

/-- Witness for C4 (amended): after the failing concrete batch, the world
is exactly the original one. -/
theorem batch_atomic_c4_witness : (UnitOfWork.batch c4Ops wOneUser).2 = wOneUser := by
  exact batch_atomic_c4 c4Ops wOneUser .notFound (UnitOfWork.batch c4Ops wOneUser).2 (by rfl)

/-- Sequential batch execution of operations that each succeed on the
initial committed state without modifying it: every member runs on that
state, the results line up with the members. -/
theorem prismaBatchGo_indep (db : DB) : ∀ (ops : List BatchOp),
    (∀ op ∈ ops, ∃ v, op db = .ok (v, db)) →
    ∃ vs, prismaBatchGo ops db = .ok (vs, db) ∧ vs.length = ops.length ∧
      ∀ i (hi : i < ops.length) (hv : i < vs.length),
        (ops.get ⟨i, hi⟩) db = .ok (vs.get ⟨i, hv⟩, db)
  | [], _ => ⟨[], rfl, rfl, fun i hi _ => absurd hi (Nat.not_lt_zero i)⟩
  | op :: rest, h => by
    obtain ⟨v, hv⟩ := h op (List.mem_cons_self op rest)
    obtain ⟨vs, hgo, hlen, hord⟩ :=
      prismaBatchGo_indep db rest (fun o ho => h o (List.mem_cons_of_mem op ho))
    refine ⟨v :: vs, ?_, by simp [hlen], ?_⟩
    · unfold prismaBatchGo
      rw [hv]
      dsimp only
      rw [hgo]
    · intro i hi hv2
      cases i with
      | zero => exact hv
      | succ n => exact hord n (Nat.lt_of_succ_lt_succ hi) (Nat.lt_of_succ_lt_succ hv2)

/-- C5: for a fixed list of independent operations (each succeeds on the
initial committed state without modifying it), `batch` succeeds, leaves
the world unchanged, and returns exactly one result per operation with
the i-th output being the result of the i-th operation — output order
equals input order. -/
theorem batch_order_c5 (ops : List BatchOp) (w : World)
    (h : ∀ op ∈ ops, ∃ v, op w.committed = .ok (v, w.committed)) :
    ∃ vs, UnitOfWork.batch ops w = (.ok vs, w) ∧ vs.length = ops.length ∧
      ∀ i (hi : i < ops.length) (hv : i < vs.length),
        (ops.get ⟨i, hi⟩) w.committed = .ok (vs.get ⟨i, hv⟩, w.committed) := by
  obtain ⟨vs, hgo, hlen, hord⟩ := prismaBatchGo_indep w.committed ops h
  refine ⟨vs, ?_, hlen, hord⟩
  unfold UnitOfWork.batch prismaBatch
  rw [hgo]

/-- Two independent read-only batch members: a count of active users and
a lookup of the sample user. -/
def c5Ops : List BatchOp :=
  [PrismaClient.countOp .user activeFilter,
   PrismaClient.findOp .user (fun r => r.id = "u1")]

/-- Witness for C5: the two-member read-only batch returns the two
results in input order and leaves the world unchanged. -/
theorem batch_order_c5_witness :
    UnitOfWork.batch c5Ops wOneUser = (.ok [Value.nat 1, Value.opt (some uAlice)], wOneUser) := by
  obtain ⟨vs, hb, hlen, hord⟩ := batch_order_c5 c5Ops wOneUser (by
    intro op hop
    simp only [c5Ops, List.mem_cons, List.not_mem_nil, or_false] at hop
    rcases hop with h | h
    · exact ⟨Value.nat 1, by rw [h]; rfl⟩
    · exact ⟨Value.opt (some uAlice), by rw [h]; rfl⟩)
  exact rfl

/-- Modelled from the spec: the scope-threading `findBySlug` the spec's
load-bearing contract prescribes for every domain-specific method
(delegate `tx ? tx.academy : this.prisma.academy`, as the baseline
operations do); the source method has no scope parameter, so this
spec-side definition exists only to compare against it. -/
def findBySlugSpec (slug : String) (tx : Option TxClient) (w : World) :
    Except DbError (Option Entity × World) :=
  (resolveDelegate (fun o =>
    match o with
    | some t => ⟨.tx t, .academy⟩
    | none => ⟨.ambient, .academy⟩) tx).run
    (fun t _ => .ok (Table.findUniqueBy (fun r => r.slug = slug && r.deletedAt = none) t, t)) w

/-- An academy row present only in a scope's uncommitted view. -/
def aBjj : Entity :=
  { id := "a1", slug := "bjj", name := "BJJ" }

/-- A world with an open scope whose view holds `aBjj`, while the
committed state holds no academy. -/
def wScopedAcademy : World :=
  { committed := dbOneUser
    scope := some { sid := 0, view := { dbOneUser with academies := [aBjj] }
                    iso := .readCommitted }
    nextSid := 1 }

/-- Counterexample to C2 as stated: `AcademiesRepository.findBySlug` has
no scope parameter to accept — with a scope open whose view holds the
academy, the source method queries the ambient connection and misses it,
while the scope-threading method the claim prescribes sees it. -/
theorem domain_scope_c2_counterexample :
    AcademiesRepository.findBySlug "bjj" wScopedAcademy = .ok (none, wScopedAcademy) ∧
    findBySlugSpec "bjj" (some 0) wScopedAcademy = .ok (some aBjj, wScopedAcademy) :=
  ⟨rfl, rfl⟩

/-- C2 (amended): the domain-specific methods of `UsersRepository` and
`RefreshTokenRepository` accept the optional scope and thread it to the
underlying store call — with a scope supplied they execute against that
scope's view (leaving the committed state untouched), without one against
the ambient connection; the domain-specific methods of
`AcademiesRepository` and `PlansRepository` take no scope parameter at
all and always execute against the ambient connection, whatever scope may
be open. -/
theorem domain_scope_c2 :
    (∀ email s (w : World) sc, w.scope = some sc → sc.sid = s →
      UsersRepository.findByEmail email (some s) w =
        .ok (Table.findUniqueBy (fun r => r.email = email) (sc.view.getTable .user), w)) ∧
    (∀ email (w : World),
      UsersRepository.findByEmail email none w =
        .ok (Table.findUniqueBy (fun r => r.email = email) (w.committed.getTable .user), w)) ∧
    (∀ email s (w : World) sc, w.scope = some sc → sc.sid = s →
      UsersRepository.findActiveByEmail email (some s) w =
        .ok (Table.findUniqueBy (fun r => r.email = email && r.deletedAt = none)
          (sc.view.getTable .user), w)) ∧
    (∀ email (w : World),
      UsersRepository.findActiveByEmail email none w =
        .ok (Table.findUniqueBy (fun r => r.email = email && r.deletedAt = none)
          (w.committed.getTable .user), w)) ∧
    (∀ data s (w : World) sc a t, w.scope = some sc → sc.sid = s →
      Table.createEntity data (sc.view.getTable .user) = .ok (a, t) →
      UsersRepository.createUser data (some s) w =
        .ok (a, { w with scope := some { sc with view := sc.view.setTable .user t } })) ∧
    (∀ data (w : World) a t,
      Table.createEntity data (w.committed.getTable .user) = .ok (a, t) →
      UsersRepository.createUser data none w =
        .ok (a, { w with committed := w.committed.setTable .user t })) ∧
    (∀ id data s (w : World) sc a t, w.scope = some sc → sc.sid = s →
      Table.updateById id data (sc.view.getTable .user) = .ok (a, t) →
      UsersRepository.updateUser id data (some s) w =
        .ok (a, { w with scope := some { sc with view := sc.view.setTable .user t } })) ∧
    (∀ id data (w : World) a t,
      Table.updateById id data (w.committed.getTable .user) = .ok (a, t) →
      UsersRepository.updateUser id data none w =
        .ok (a, { w with committed := w.committed.setTable .user t })) ∧
    (∀ token s (w : World) sc, w.scope = some sc → sc.sid = s →
      RefreshTokenRepository.findValidToken token (some s) w =
        .ok (Table.findUniqueBy
          (fun r => r.token = token && r.revokedAt = none && sc.view.now < r.expiresAt)
          (sc.view.getTable .token), w)) ∧
    (∀ token (w : World),
      RefreshTokenRepository.findValidToken token none w =
        .ok (Table.findUniqueBy
          (fun r => r.token = token && r.revokedAt = none && w.committed.now < r.expiresAt)
          (w.committed.getTable .token), w)) ∧
    (∀ data s (w : World) sc a t, w.scope = some sc → sc.sid = s →
      Table.createEntity data (sc.view.getTable .token) = .ok (a, t) →
      RefreshTokenRepository.createToken data (some s) w =
        .ok (a, { w with scope := some { sc with view := sc.view.setTable .token t } })) ∧
    (∀ data (w : World) a t,
      Table.createEntity data (w.committed.getTable .token) = .ok (a, t) →
      RefreshTokenRepository.createToken data none w =
        .ok (a, { w with committed := w.committed.setTable .token t })) ∧
    (∀ id s (w : World) sc a t, w.scope = some sc → sc.sid = s →
      Table.updateById id (fun r => { r with revokedAt := some sc.view.now })
          (sc.view.getTable .token) = .ok (a, t) →
      RefreshTokenRepository.revokeToken id (some s) w =
        .ok (a, { w with scope := some { sc with view := sc.view.setTable .token t } })) ∧
    (∀ id (w : World) a t,
      Table.updateById id (fun r => { r with revokedAt := some w.committed.now })
          (w.committed.getTable .token) = .ok (a, t) →
      RefreshTokenRepository.revokeToken id none w =
        .ok (a, { w with committed := w.committed.setTable .token t })) ∧
    (∀ userId token s (w : World) sc, w.scope = some sc → sc.sid = s →
      RefreshTokenRepository.revokeUserTokens userId token (some s) w =
        .ok ((Table.updateManyBy
            (fun r => r.userId = userId
              && (match token with | some tok => r.token = tok | none => true)
              && r.revokedAt = none)
            (fun r => { r with revokedAt := some sc.view.now })
            (sc.view.getTable .token)).1,
          { w with scope := some { sc with view := (sc.view.setTable .token
            (Table.updateManyBy
              (fun r => r.userId = userId
                && (match token with | some tok => r.token = tok | none => true)
                && r.revokedAt = none)
              (fun r => { r with revokedAt := some sc.view.now })
              (sc.view.getTable .token)).2) } })) ∧
    (∀ userId token (w : World),
      RefreshTokenRepository.revokeUserTokens userId token none w =
        .ok ((Table.updateManyBy
            (fun r => r.userId = userId
              && (match token with | some tok => r.token = tok | none => true)
              && r.revokedAt = none)
            (fun r => { r with revokedAt := some w.committed.now })
            (w.committed.getTable .token)).1,
          { w with committed := (w.committed.setTable .token
            (Table.updateManyBy
              (fun r => r.userId = userId
                && (match token with | some tok => r.token = tok | none => true)
                && r.revokedAt = none)
              (fun r => { r with revokedAt := some w.committed.now })
              (w.committed.getTable .token)).2) })) ∧
    (∀ s (w : World) sc, w.scope = some sc → sc.sid = s →
      RefreshTokenRepository.cleanExpiredTokens (some s) w =
        .ok ((Table.deleteManyBy
            (fun r => r.expiresAt < sc.view.now || !(r.revokedAt = none))
            (sc.view.getTable .token)).1,
          { w with scope := some { sc with view := (sc.view.setTable .token
            (Table.deleteManyBy
              (fun r => r.expiresAt < sc.view.now || !(r.revokedAt = none))
              (sc.view.getTable .token)).2) } })) ∧
    (∀ w : World,
      RefreshTokenRepository.cleanExpiredTokens none w =
        .ok ((Table.deleteManyBy
            (fun r => r.expiresAt < w.committed.now || !(r.revokedAt = none))
            (w.committed.getTable .token)).1,
          { w with committed := (w.committed.setTable .token
            (Table.deleteManyBy
              (fun r => r.expiresAt < w.committed.now || !(r.revokedAt = none))
              (w.committed.getTable .token)).2) })) ∧
    (∀ slug (w : World),
      AcademiesRepository.findBySlug slug w =
        .ok (Table.findUniqueBy (fun r => r.slug = slug && r.deletedAt = none)
          (w.committed.getTable .academy), w)) ∧
    (∀ w : World,
      AcademiesRepository.findActiveAcademies w =
        .ok (Table.sortLe (fun a b => decide (a.name ≤ b.name))
          (Table.findManyBy (fun r => r.deletedAt = none) (w.committed.getTable .academy)),
          w)) ∧
    (∀ data (w : World) a t,
      Table.createEntity data (w.committed.getTable .academy) = .ok (a, t) →
      AcademiesRepository.createAcademy data w =
        .ok (a, { w with committed := w.committed.setTable .academy t })) ∧
    (∀ id data (w : World) a t,
      Table.updateById id data (w.committed.getTable .academy) = .ok (a, t) →
      AcademiesRepository.updateAcademy id data w =
        .ok (a, { w with committed := w.committed.setTable .academy t })) ∧
    (∀ academyId (w : World),
      PlansRepository.findByAcademy academyId w =
        .ok (Table.sortLe (fun a b => decide (a.price ≤ b.price))
          (Table.findManyBy (fun r => r.academyId = academyId && r.deletedAt = none)
            (w.committed.getTable .plan)), w)) ∧
    (∀ academyId (w : World),
      PlansRepository.findActivePlans academyId w =
        .ok (Table.sortLe (fun a b => decide (a.price ≤ b.price))
          (Table.findManyBy
            (fun r => r.academyId = academyId && r.deletedAt = none && r.isActive)
            (w.committed.getTable .plan)), w)) ∧
    (∀ data (w : World) a t,
      Table.createEntity data (w.committed.getTable .plan) = .ok (a, t) →
      PlansRepository.createPlan data w =
        .ok (a, { w with committed := w.committed.setTable .plan t })) ∧
    (∀ id data (w : World) a t,
      Table.updateById id data (w.committed.getTable .plan) = .ok (a, t) →
      PlansRepository.updatePlan id data w =
        .ok (a, { w with committed := w.committed.setTable .plan t })) := by
  refine ⟨?_, ?_, ?_, ?_, ?_, ?_, ?_, ?_, ?_, ?_, ?_, ?_, ?_, ?_, ?_, ?_, ?_, ?_,
    ?_, ?_, ?_, ?_, ?_, ?_, ?_, ?_⟩
  · intro email s w sc h1 h2
    exact Delegate.run_tx_read s .user
      (fun t _ => Table.findUniqueBy (fun r => r.email = email) t) w sc h1 h2
  · intro email w
    exact Delegate.run_ambient_read .user
      (fun t _ => Table.findUniqueBy (fun r => r.email = email) t) w
  · intro email s w sc h1 h2
    exact Delegate.run_tx_read s .user
      (fun t _ => Table.findUniqueBy (fun r => r.email = email && r.deletedAt = none) t)
      w sc h1 h2
  · intro email w
    exact Delegate.run_ambient_read .user
      (fun t _ => Table.findUniqueBy (fun r => r.email = email && r.deletedAt = none) t) w
  · intro data s w sc a t h1 h2 hop
    exact Delegate.run_tx_ok s .user (fun t _ => Table.createEntity data t) w sc a t h1 h2 hop
  · intro data w a t hop
    exact Delegate.run_ambient_ok .user (fun t _ => Table.createEntity data t) w a t hop
  · intro id data s w sc a t h1 h2 hop
    exact Delegate.run_tx_ok s .user (fun t _ => Table.updateById id data t) w sc a t h1 h2 hop
  · intro id data w a t hop
    exact Delegate.run_ambient_ok .user (fun t _ => Table.updateById id data t) w a t hop
  · intro token s w sc h1 h2
    exact Delegate.run_tx_read s .token
      (fun t now => Table.findUniqueBy
        (fun r => r.token = token && r.revokedAt = none && now < r.expiresAt) t) w sc h1 h2
  · intro token w
    exact Delegate.run_ambient_read .token
      (fun t now => Table.findUniqueBy
        (fun r => r.token = token && r.revokedAt = none && now < r.expiresAt) t) w
  · intro data s w sc a t h1 h2 hop
    exact Delegate.run_tx_ok s .token (fun t _ => Table.createEntity data t) w sc a t h1 h2 hop
  · intro data w a t hop
    exact Delegate.run_ambient_ok .token (fun t _ => Table.createEntity data t) w a t hop
  · intro id s w sc a t h1 h2 hop
    exact Delegate.run_tx_ok s .token
      (fun t now => Table.updateById id (fun r => { r with revokedAt := some now }) t)
      w sc a t h1 h2 hop
  · intro id w a t hop
    exact Delegate.run_ambient_ok .token
      (fun t now => Table.updateById id (fun r => { r with revokedAt := some now }) t)
      w a t hop
  · intro userId token s w sc h1 h2
    exact Delegate.run_tx_ok s .token
      (fun t now => .ok (Table.updateManyBy
        (fun r => r.userId = userId
          && (match token with | some tok => r.token = tok | none => true)
          && r.revokedAt = none)
        (fun r => { r with revokedAt := some now }) t)) w sc _ _ h1 h2 rfl
  · intro userId token w
    exact Delegate.run_ambient_ok .token
      (fun t now => .ok (Table.updateManyBy
        (fun r => r.userId = userId
          && (match token with | some tok => r.token = tok | none => true)
          && r.revokedAt = none)
        (fun r => { r with revokedAt := some now }) t)) w _ _ rfl
  · intro s w sc h1 h2
    exact Delegate.run_tx_ok s .token
      (fun t now => .ok (Table.deleteManyBy
        (fun r => r.expiresAt < now || !(r.revokedAt = none)) t)) w sc _ _ h1 h2 rfl
  · intro w
    exact Delegate.run_ambient_ok .token
      (fun t now => .ok (Table.deleteManyBy
        (fun r => r.expiresAt < now || !(r.revokedAt = none)) t)) w _ _ rfl
  · intro slug w
    exact Delegate.run_ambient_read .academy
      (fun t _ => Table.findUniqueBy (fun r => r.slug = slug && r.deletedAt = none) t) w
  · intro w
    exact Delegate.run_ambient_read .academy
      (fun t _ => Table.sortLe (fun a b => decide (a.name ≤ b.name))
        (Table.findManyBy (fun r => r.deletedAt = none) t)) w
  · intro data w a t hop
    exact Delegate.run_ambient_ok .academy (fun t _ => Table.createEntity data t) w a t hop
  · intro id data w a t hop
    exact Delegate.run_ambient_ok .academy (fun t _ => Table.updateById id data t) w a t hop
  · intro academyId w
    exact Delegate.run_ambient_read .plan
      (fun t _ => Table.sortLe (fun a b => decide (a.price ≤ b.price))
        (Table.findManyBy (fun r => r.academyId = academyId && r.deletedAt = none) t)) w
  · intro academyId w
    exact Delegate.run_ambient_read .plan
      (fun t _ => Table.sortLe (fun a b => decide (a.price ≤ b.price))
        (Table.findManyBy
          (fun r => r.academyId = academyId && r.deletedAt = none && r.isActive) t)) w
  · intro data w a t hop
    exact Delegate.run_ambient_ok .plan (fun t _ => Table.createEntity data t) w a t hop
  · intro id data w a t hop
    exact Delegate.run_ambient_ok .plan (fun t _ => Table.updateById id data t) w a t hop

/-- A second user present only in a scope's uncommitted view. -/
def uEve : Entity :=
  { id := "u2", email := "eve@x.com" }

/-- A world whose open scope's view holds `uEve` besides the committed
sample user. -/
def wScopedUser : World :=
  { committed := dbOneUser
    scope := some { sid := 0, view := { dbOneUser with users := [uAlice, uEve] }
                    iso := .readCommitted }
    nextSid := 1 }

/-- Witness for C2 (amended): a scoped `findByEmail` sees the user that
exists only in the scope's view, while `findByAcademy` (no scope
parameter) reads the committed plans even though a scope is open. -/
theorem domain_scope_c2_witness :
    UsersRepository.findByEmail "eve@x.com" (some 0) wScopedUser =
      .ok (some uEve, wScopedUser) ∧
    PlansRepository.findByAcademy "a1" wScopedUser = .ok ([], wScopedUser) := by
  obtain ⟨c1, c2, c3, c4, c5, c6, c7, c8, c9, c10, c11, c12, c13,
    c14, c15, c16, c17, c18, c19, c20, c21, c22, c23, c24, c25, c26⟩ := domain_scope_c2
  refine ⟨(c1 "eve@x.com" 0 wScopedUser
    { sid := 0, view := { dbOneUser with users := [uAlice, uEve] }, iso := .readCommitted }
    rfl rfl).trans (by rfl), (c23 "a1" wScopedUser).trans (by rfl)⟩

/-- The transaction-control shape of a world: whether a scope is open,
and its id and isolation level. A repository operation must never change
it. -/
def scopeShape (w : World) : Option (TxClient × IsolationLevel) :=
  w.scope.map (fun sc => (sc.sid, sc.iso))

/-- An operation result neither opens, commits, nor rolls back a
transaction: on success the open-scope structure and the scope counter
are unchanged. -/
def PreservesTx {α : Type} (e : Except DbError (α × World)) (w : World) : Prop :=
  ∀ a w2, e = .ok (a, w2) → scopeShape w2 = scopeShape w ∧ w2.nextSid = w.nextSid

/-- Any single delegate operation preserves the transaction-control
shape: it only reads and writes a view, never opening or closing scopes. -/
theorem Delegate.run_preservesTx (d : Delegate)
    (op : Table → Nat → Except DbError (α × Table)) (w : World) :
    PreservesTx (Delegate.run d op w) w := by
  intro a w2 hrun
  obtain ⟨c, k⟩ := d
  cases c with
  | ambient =>
    rw [Delegate.run_ambient k op w] at hrun
    cases hop : op (w.committed.getTable k) w.committed.now with
    | error e => rw [hop] at hrun; simp at hrun
    | ok p =>
      obtain ⟨a2, t⟩ := p
      rw [hop] at hrun
      simp only [Except.ok.injEq, Prod.mk.injEq] at hrun
      obtain ⟨ha, hw⟩ := hrun
      refine ⟨?_, ?_⟩ <;> rw [← hw]
      rfl
  | tx s =>
    rcases hsc : w.scope with _ | sc
    · have hrun2 : Delegate.run ⟨.tx s, k⟩ op w = Except.error .invalidScopeUse := by
        simp [Delegate.run, Client.getView, hsc]
      rw [hrun2] at hrun
      simp at hrun
    · by_cases hs : sc.sid = s
      · rw [Delegate.run_tx s k op w sc hsc hs] at hrun
        cases hop : op (sc.view.getTable k) sc.view.now with
        | error e => rw [hop] at hrun; simp at hrun
        | ok p =>
          obtain ⟨a2, t⟩ := p
          rw [hop] at hrun
          simp only [Except.ok.injEq, Prod.mk.injEq] at hrun
          obtain ⟨ha, hw⟩ := hrun
          refine ⟨?_, ?_⟩ <;> rw [← hw]
          simp [scopeShape, hsc]
      · have hrun2 : Delegate.run ⟨.tx s, k⟩ op w = Except.error .invalidScopeUse := by
          simp [Delegate.run, Client.getView, hsc, hs]
        rw [hrun2] at hrun
        simp at hrun

/-- The coordinator always closes the scope it committed. -/
theorem commitWorld_scope (w : World) : (commitWorld w).scope = none := by
  obtain ⟨c, s, n⟩ := w
  cases s <;> rfl

/-- Modelled from the spec: the scope-honoring academy delegate the
design rule prescribes (`tx ? tx.academy : this.prisma.academy`); the
source override ignores the scope, so this spec-side definition exists
only to compare against it. -/
def academyScopedDelegate : Option TxClient → Delegate := fun o =>
  match o with
  | some t => ⟨.tx t, .academy⟩
  | none => ⟨.ambient, .academy⟩

/-- The committed version of an academy row. -/
def aOld : Entity :=
  { id := "a1", slug := "s1", name := "Old" }

/-- The same academy as modified inside an open scope. -/
def aNew : Entity :=
  { aOld with name := "New" }

/-- A world whose committed state holds `aOld` while the open scope's
view holds `aNew`. -/
def wC6 : World :=
  { committed := { dbOneUser with academies := [aOld] }
    scope := some { sid := 0, view := { dbOneUser with academies := [aNew] }
                    iso := .readCommitted }
    nextSid := 1 }

/-- Counterexample to C6 as stated: `AcademiesRepository`'s baseline
`findById`, called WITH a scope, still executes against the ambient
connection (its `getDelegate` override ignores the transaction client),
returning the committed row instead of the scope's, which the
scope-honoring delegate would return. -/
theorem repo_scope_c6_counterexample :
    BaseRepository.findById AcademiesRepository.getDelegate "a1" (some 0) wC6 =
      .ok (some aOld, wC6) ∧
    BaseRepository.findById academyScopedDelegate "a1" (some 0) wC6 =
      .ok (some aNew, wC6) :=
  ⟨rfl, rfl⟩

/-- C6 (amended): no Repository operation, baseline or domain-specific,
ever opens, commits, or rolls back a transaction: every operation
preserves the open-scope structure (presence, id, isolation level) and
the scope counter, and scope handling resides solely in the Unit-of-Work
Coordinator (`execute` always returns with the scope closed). Each
operation executes against the view its resolved delegate designates —
but for `AcademiesRepository` and `PlansRepository` that delegate is the
ambient connection even when a scope is supplied, so their operations
ignore the scope argument entirely. -/
theorem repo_no_txctl_c6 :
    (∀ gd id tx (w : World), PreservesTx (BaseRepository.findById gd id tx w) w) ∧
    (∀ gd p o tx (w : World), PreservesTx (BaseRepository.findMany gd p o tx w) w) ∧
    (∀ gd data tx (w : World), PreservesTx (BaseRepository.create gd data tx w) w) ∧
    (∀ gd id data tx (w : World), PreservesTx (BaseRepository.update gd id data tx w) w) ∧
    (∀ gd id tx (w : World), PreservesTx (BaseRepository.delete gd id tx w) w) ∧
    (∀ gd id tx (w : World), PreservesTx (BaseRepository.softDelete gd id tx w) w) ∧
    (∀ gd p tx (w : World), PreservesTx (BaseRepository.count gd p tx w) w) ∧
    (∀ gd p tx (w : World), PreservesTx (BaseRepository.existsBy gd p tx w) w) ∧
    (∀ email tx (w : World), PreservesTx (UsersRepository.findByEmail email tx w) w) ∧
    (∀ email tx (w : World),
      PreservesTx (UsersRepository.findActiveByEmail email tx w) w) ∧
    (∀ data tx (w : World), PreservesTx (UsersRepository.createUser data tx w) w) ∧
    (∀ id data tx (w : World), PreservesTx (UsersRepository.updateUser id data tx w) w) ∧
    (∀ token tx (w : World),
      PreservesTx (RefreshTokenRepository.findValidToken token tx w) w) ∧
    (∀ data tx (w : World), PreservesTx (RefreshTokenRepository.createToken data tx w) w) ∧
    (∀ id tx (w : World), PreservesTx (RefreshTokenRepository.revokeToken id tx w) w) ∧
    (∀ userId token tx (w : World),
      PreservesTx (RefreshTokenRepository.revokeUserTokens userId token tx w) w) ∧
    (∀ tx (w : World), PreservesTx (RefreshTokenRepository.cleanExpiredTokens tx w) w) ∧
    (∀ slug (w : World), PreservesTx (AcademiesRepository.findBySlug slug w) w) ∧
    (∀ w : World, PreservesTx (AcademiesRepository.findActiveAcademies w) w) ∧
    (∀ data (w : World), PreservesTx (AcademiesRepository.createAcademy data w) w) ∧
    (∀ id data (w : World), PreservesTx (AcademiesRepository.updateAcademy id data w) w) ∧
    (∀ academyId (w : World), PreservesTx (PlansRepository.findByAcademy academyId w) w) ∧
    (∀ academyId (w : World),
      PreservesTx (PlansRepository.findActivePlans academyId w) w) ∧
    (∀ data (w : World), PreservesTx (PlansRepository.createPlan data w) w) ∧
    (∀ id data (w : World), PreservesTx (PlansRepository.updatePlan id data w) w) ∧
    (∀ id tx (w : World),
      BaseRepository.findById AcademiesRepository.getDelegate id tx w =
        BaseRepository.findById AcademiesRepository.getDelegate id none w) ∧
    (∀ id tx (w : World),
      BaseRepository.findById PlansRepository.getDelegate id tx w =
        BaseRepository.findById PlansRepository.getDelegate id none w) ∧
    (∀ (α : Type) (work : Work α) (w : World),
      (UnitOfWork.execute work w).2.scope = none) := by
  refine ⟨fun gd id tx w => Delegate.run_preservesTx _ _ w,
    fun gd p o tx w => Delegate.run_preservesTx _ _ w,
    fun gd data tx w => Delegate.run_preservesTx _ _ w,
    fun gd id data tx w => Delegate.run_preservesTx _ _ w,
    fun gd id tx w => Delegate.run_preservesTx _ _ w,
    fun gd id tx w => Delegate.run_preservesTx _ _ w,
    fun gd p tx w => Delegate.run_preservesTx _ _ w,
    fun gd p tx w => Delegate.run_preservesTx _ _ w,
    fun email tx w => Delegate.run_preservesTx _ _ w,
    fun email tx w => Delegate.run_preservesTx _ _ w,
    fun data tx w => Delegate.run_preservesTx _ _ w,
    fun id data tx w => Delegate.run_preservesTx _ _ w,
    fun token tx w => Delegate.run_preservesTx _ _ w,
    fun data tx w => Delegate.run_preservesTx _ _ w,
    fun id tx w => Delegate.run_preservesTx _ _ w,
    fun userId token tx w => Delegate.run_preservesTx _ _ w,
    fun tx w => Delegate.run_preservesTx _ _ w,
    fun slug w => Delegate.run_preservesTx _ _ w,
    fun w => Delegate.run_preservesTx _ _ w,
    fun data w => Delegate.run_preservesTx _ _ w,
    fun id data w => Delegate.run_preservesTx _ _ w,
    fun academyId w => Delegate.run_preservesTx _ _ w,
    fun academyId w => Delegate.run_preservesTx _ _ w,
    fun data w => Delegate.run_preservesTx _ _ w,
    fun id data w => Delegate.run_preservesTx _ _ w,
    fun id tx w => by cases tx <;> rfl,
    fun id tx w => by cases tx <;> rfl,
    ?_⟩
  intro α work w
  unfold UnitOfWork.execute prismaTransactionRun
  rcases hw : work w.nextSid (openScope .readCommitted w) with ⟨r, w2⟩
  cases r with
  | ok a => exact commitWorld_scope w2
  | error e => rfl

/-- A world with an open, empty-delta scope over the sample database. -/
def wC6w : World :=
  { committed := dbOneUser
    scope := some { sid := 0, view := dbOneUser, iso := .readCommitted }
    nextSid := 1 }

/-- A scoped repository write used to observe transaction-control
preservation. -/
def c6Run : Except DbError (Entity × World) :=
  UsersRepository.createUser uEve (some 0) wC6w

/-- The world after that write. -/
def c6After : World :=
  match c6Run with
  | .ok (_, w2) => w2
  | .error _ => wC6w

/-- Witness for C6 (amended): a concrete scoped `createUser` leaves the
open-scope structure and the scope counter exactly as they were. -/
theorem repo_no_txctl_c6_witness :
    scopeShape c6After = scopeShape wC6w ∧ c6After.nextSid = wC6w.nextSid := by
  have h := repo_no_txctl_c6
  exact h.2.2.2.2.2.2.2.2.2.2.1 uEve (some 0) wC6w uEve c6After (by rfl)

/-- Counterexample to C7 as stated: `PlansRepository.getDelegate`, given
a scope, does not return that scope's delegate — it ignores the argument
and returns the ambient delegate. -/
theorem getDelegate_c7_counterexample :
    PlansRepository.getDelegate (some 0) = { client := .ambient, kind := .plan } ∧
    PlansRepository.getDelegate (some 0) ≠ { client := .tx 0, kind := .plan } := by
  exact ⟨rfl, by decide⟩

/-- C7 (amended): `getDelegate` is pure per-call dispatch and nothing is
cached: every baseline operation's outcome depends on `getDelegate` only
through its value at the scope argument of that very call.
`UsersRepository`'s and `RefreshTokenRepository`'s `getDelegate` map a
supplied scope to that scope's delegate and absence to the ambient one;
`AcademiesRepository`'s and `PlansRepository`'s ignore the argument and
always return the ambient delegate. -/
theorem getDelegate_c7 :
    (∀ s, UsersRepository.getDelegate (some s) = { client := .tx s, kind := .user }) ∧
    (UsersRepository.getDelegate none = { client := .ambient, kind := .user }) ∧
    (∀ s, RefreshTokenRepository.getDelegate (some s) =
      { client := .tx s, kind := .token }) ∧
    (RefreshTokenRepository.getDelegate none = { client := .ambient, kind := .token }) ∧
    (∀ o, AcademiesRepository.getDelegate o = { client := .ambient, kind := .academy }) ∧
    (∀ o, PlansRepository.getDelegate o = { client := .ambient, kind := .plan }) ∧
    (∀ gd tx, resolveDelegate gd tx = gd tx) ∧
    (∀ gd gd2 id tx (w : World), gd tx = gd2 tx →
      BaseRepository.findById gd id tx w = BaseRepository.findById gd2 id tx w) ∧
    (∀ gd gd2 p o tx (w : World), gd tx = gd2 tx →
      BaseRepository.findMany gd p o tx w = BaseRepository.findMany gd2 p o tx w) ∧
    (∀ gd gd2 data tx (w : World), gd tx = gd2 tx →
      BaseRepository.create gd data tx w = BaseRepository.create gd2 data tx w) ∧
    (∀ gd gd2 id data tx (w : World), gd tx = gd2 tx →
      BaseRepository.update gd id data tx w = BaseRepository.update gd2 id data tx w) ∧
    (∀ gd gd2 id tx (w : World), gd tx = gd2 tx →
      BaseRepository.delete gd id tx w = BaseRepository.delete gd2 id tx w) ∧
    (∀ gd gd2 id tx (w : World), gd tx = gd2 tx →
      BaseRepository.softDelete gd id tx w = BaseRepository.softDelete gd2 id tx w) ∧
    (∀ gd gd2 p tx (w : World), gd tx = gd2 tx →
      BaseRepository.count gd p tx w = BaseRepository.count gd2 p tx w) ∧
    (∀ gd gd2 p tx (w : World), gd tx = gd2 tx →
      BaseRepository.existsBy gd p tx w = BaseRepository.existsBy gd2 p tx w) := by
  refine ⟨fun s => rfl, rfl, fun s => rfl, rfl, fun o => rfl, fun o => rfl,
    resolveDelegate_eq, ?_, ?_, ?_, ?_, ?_, ?_, ?_, ?_⟩
  · intro gd gd2 id tx w h
    unfold BaseRepository.findById
    rw [resolveDelegate_eq gd tx, resolveDelegate_eq gd2 tx, h]
  · intro gd gd2 p o tx w h
    unfold BaseRepository.findMany
    rw [resolveDelegate_eq gd tx, resolveDelegate_eq gd2 tx, h]
  · intro gd gd2 data tx w h
    unfold BaseRepository.create
    rw [resolveDelegate_eq gd tx, resolveDelegate_eq gd2 tx, h]
  · intro gd gd2 id data tx w h
    unfold BaseRepository.update
    rw [resolveDelegate_eq gd tx, resolveDelegate_eq gd2 tx, h]
  · intro gd gd2 id tx w h
    unfold BaseRepository.delete
    rw [resolveDelegate_eq gd tx, resolveDelegate_eq gd2 tx, h]
  · intro gd gd2 id tx w h
    unfold BaseRepository.softDelete
    rw [resolveDelegate_eq gd tx, resolveDelegate_eq gd2 tx, h]
  · intro gd gd2 p tx w h
    unfold BaseRepository.count
    rw [resolveDelegate_eq gd tx, resolveDelegate_eq gd2 tx, h]
  · intro gd gd2 p tx w h
    unfold BaseRepository.existsBy
    rw [resolveDelegate_eq gd tx, resolveDelegate_eq gd2 tx, h]

/-- A dispatcher agreeing with `UsersRepository.getDelegate` on supplied
scopes but not on absence. -/
def gdUserAlt : Option TxClient → Delegate := fun o =>
  match o with
  | some t => ⟨.tx t, .user⟩
  | none => ⟨.ambient, .token⟩

/-- Witness for C7 (amended): the dispatch equations at a concrete scope,
and a concrete `findById` whose outcome only depends on `getDelegate` at
the scope of that very call. -/
theorem getDelegate_c7_witness :
    UsersRepository.getDelegate (some 3) = { client := .tx 3, kind := .user } ∧
    BaseRepository.findById UsersRepository.getDelegate "u1" (some 0) wScopedUser =
      BaseRepository.findById gdUserAlt "u1" (some 0) wScopedUser := by
  have h := getDelegate_c7
  exact ⟨h.1 3,
    h.2.2.2.2.2.2.2.1 UsersRepository.getDelegate gdUserAlt "u1" (some 0) wScopedUser rfl⟩

end TemplateAcad
